import Mathlib

/-!
Verification of the HeavyDB/OmniSciDB ibis backend's type mapping and
SQL compiler layer, as a shallow embedding of the Python sources
(src/ibis_heavyai/compiler.py, src/ibis_heavyai/dtypes.py,
src/ibis_omniscidb/client.py).
-/

namespace HeavyDB

/-! ## Type/dialect mapping (src/ibis_heavyai/dtypes.py, src/ibis_omniscidb/client.py) -/

/-- Host-framework (ibis) datatype kinds referenced by the mapping table. -/
inductive IbisKind
  | int64 | boolean | date | decimal | double | float32 | int32
  | linestring | multipolygon | null | point | polygon | int16
  | string | time | timestamp | int8
  deriving DecidableEq, Repr

/-- A host-framework datatype instance: kind, optional precision/scale
(used only by decimal), and nullability.  Instance equality in the host
framework compares all of these fields. -/
structure IbisInstance where
  kind : IbisKind
  precision : Option Nat
  scale : Option Nat
  nullable : Bool
  deriving DecidableEq, Repr

/-- A value stored in the `sql_to_ibis_dtypes` mapping: either a datatype
class object (`dt.Boolean`, `dt.Null`) or a datatype instance
(`dt.int64`, `dt.Decimal(18, 9)`, ...).  A class object is never equal to
an instance. -/
inductive DictVal
  | cls (k : IbisKind)
  | inst (i : IbisInstance)
  deriving DecidableEq, Repr

/-- The `sql_to_ibis_dtypes` table of src/ibis_heavyai/dtypes.py, in source
order.  `DECIMAL` and `NUMERIC` both map to `dt.Decimal(18, 9)`; `BOOL` and
`NULL` map to class objects, the rest to instances (default nullable). -/
def sql_to_ibis_dtypes : List (String × DictVal) :=
  [ ("BIGINT", .inst ⟨.int64, none, none, true⟩),
    ("BOOL", .cls .boolean),
    ("DATE", .inst ⟨.date, none, none, true⟩),
    ("DECIMAL", .inst ⟨.decimal, some 18, some 9, true⟩),
    ("DOUBLE", .inst ⟨.double, none, none, true⟩),
    ("FLOAT", .inst ⟨.float32, none, none, true⟩),
    ("INT", .inst ⟨.int32, none, none, true⟩),
    ("LINESTRING", .inst ⟨.linestring, none, none, true⟩),
    ("MULTIPOLYGON", .inst ⟨.multipolygon, none, none, true⟩),
    ("NULL", .cls .null),
    ("NUMERIC", .inst ⟨.decimal, some 18, some 9, true⟩),
    ("POINT", .inst ⟨.point, none, none, true⟩),
    ("POLYGON", .inst ⟨.polygon, none, none, true⟩),
    ("SMALLINT", .inst ⟨.int16, none, none, true⟩),
    ("STR", .inst ⟨.string, none, none, true⟩),
    ("TIME", .inst ⟨.time, none, none, true⟩),
    ("TIMESTAMP", .inst ⟨.timestamp, none, none, true⟩),
    ("TINYINT", .inst ⟨.int8, none, none, true⟩) ]

/-- The declared domain of dialect type names (the keys of
`sql_to_ibis_dtypes`). -/
def type_names : List String := sql_to_ibis_dtypes.map Prod.fst

/-- Lookup in the inverted dictionary
`ibis_dtypes = \x7bv: k for k, v in dtypes.items()\x7d` of
src/ibis_omniscidb/client.py.  A Python dict comprehension keeps the last
binding for a duplicated key, which this left fold reproduces. -/
def ibis_dtypes_lookup (v : DictVal) : Option String :=
  sql_to_ibis_dtypes.foldl (fun acc p => if p.2 = v then some p.1 else acc) none

/-- Errors raised by the type layer: `UnsupportedBackendType` from
`OmniSciDBDataType.__init__` and `NotImplementedError` from `from_ibis`,
each naming the offending token or dtype. -/
inductive TypeError
  | unsupportedBackendType (typename : String)
  | notImplemented (dtype : IbisInstance)
  deriving DecidableEq, Repr

deriving instance DecidableEq for Except

/-- The dialect type value object (`OmniSciDBDataType`): a typename and a
nullability flag. -/
structure OmniSciDBDataType where
  typename : String
  nullable : Bool
  deriving DecidableEq, Repr

/-- Model of `OmniSciDBDataType.__init__`: rejects a typename outside the mapping
table with `UnsupportedBackendType(typename)` (client.py lines 43-47). -/
def OmniSciDBDataType.init (typename : String) (nullable : Bool) :
    Except TypeError OmniSciDBDataType :=
  if (sql_to_ibis_dtypes.lookup typename).isSome then
    .ok ⟨typename, nullable⟩
  else
    .error (.unsupportedBackendType typename)

/-- Calling a mapping-table value with a nullability argument: calling a
class constructs a fresh instance; calling an instance copies it with the
new nullability (host-framework `DataType.__call__`). -/
def DictVal.callWith : DictVal → Bool → IbisInstance
  | .cls k, n => ⟨k, none, none, n⟩
  | .inst i, n => { i with nullable := n }

/-- Model of `OmniSciDBDataType.to_ibis`:
`self.dtypes[self.typename](nullable=self.nullable)` (client.py
lines 77-85).  Returns `none` only on a typename outside the table, which
a validated construction never produces. -/
def OmniSciDBDataType.to_ibis (t : OmniSciDBDataType) : Option IbisInstance :=
  (sql_to_ibis_dtypes.lookup t.typename).map (fun v => v.callWith t.nullable)

/-- Model of `OmniSciDBDataType.from_ibis` (client.py lines 87-116): first looks up
the dtype's class (`type(dtype)`) in the inverted dictionary, then the
dtype instance itself; raises `NotImplementedError` naming the dtype when
both lookups miss.  The nullability argument defaults to the dtype's. -/
def OmniSciDBDataType.from_ibis (dtype : IbisInstance) (nullable : Option Bool) :
    Except TypeError OmniSciDBDataType :=
  match ibis_dtypes_lookup (.cls dtype.kind) with
  | some tn => OmniSciDBDataType.init tn (nullable.getD dtype.nullable)
  | none =>
    match ibis_dtypes_lookup (.inst dtype) with
    | some tn => OmniSciDBDataType.init tn (nullable.getD dtype.nullable)
    | none => .error (.notImplemented dtype)

/-- Model of `OmniSciDBDataType.__str__` (client.py lines 49-54). -/
def OmniSciDBDataType.toStr (t : OmniSciDBDataType) : String :=
  if t.nullable then "Nullable(" ++ t.typename ++ ")" else t.typename

/-- Model of `OmniSciDBDataType.parse` (client.py lines 60-75): a spec starting with
`Nullable` is unwrapped via the slice `spec[9:-1]` and parsed nullable;
every other spec is passed to the constructor with its default
`nullable=True`. -/
def OmniSciDBDataType.parse (spec : String) : Except TypeError OmniSciDBDataType :=
  if spec.startsWith "Nullable" then
    OmniSciDBDataType.init ((spec.drop 9).dropRight 1) true
  else
    OmniSciDBDataType.init spec true

/-- The round trip of claim C2:
`OmniSciDBDataType.from_ibis(OmniSciDBDataType(name).to_ibis()).typename`. -/
def typename_roundtrip (name : String) : Except TypeError String := do
  let t ← OmniSciDBDataType.init name true
  match t.to_ibis with
  | some d => do
      let t2 ← OmniSciDBDataType.from_ibis d none
      pure t2.typename
  | none => .error (.unsupportedBackendType name)

/-- Whether an ibis dtype has a dialect mapping: either its class or the
instance itself is a key of the inverted dictionary. -/
def mapped_ibis (d : IbisInstance) : Bool :=
  (ibis_dtypes_lookup (.cls d.kind)).isSome || (ibis_dtypes_lookup (.inst d)).isSome

/-! ## Clause formatters and table-set formatter (src/ibis_heavyai/compiler.py) -/

/-- Errors raised by the compiler layer: `com.TranslationError` and
`com.UnsupportedOperationError`. -/
inductive CompilerError
  | translationError (msg : String)
  | unsupportedOperationError (msg : String)
  deriving DecidableEq, Repr

/-- A limit specification: the dict `\x7b'n': n, 'offset': offset\x7d` held in
`self.limit`; the offset may be absent. -/
structure LimitSpec where
  n : Int
  offset : Option Int
  deriving DecidableEq, Repr

/-- Model of `HeavyDBSelect.format_limit` (compiler.py lines 60-77): no clause when
no limit is set; otherwise `LIMIT n`, with `, offset` appended only when
the offset is present and non-zero. -/
def format_limit : Option LimitSpec → Option String
  | none => none
  | some l =>
    some ("LIMIT " ++ toString l.n ++
      (match l.offset with
       | some k => if k ≠ 0 then ", " ++ toString k else ""
       | none => ""))

/-- Join operator kinds accepted by the table-set formatter. -/
inductive JoinType
  | inner | left | leftSemi | cross
  deriving DecidableEq, Repr

/-- The `_join_names` table (compiler.py lines 83-88): inner, left-semi and
cross joins all render as `JOIN`; left joins as `LEFT JOIN`. -/
def join_name : JoinType → String
  | .inner => "JOIN"
  | .left => "LEFT JOIN"
  | .leftSemi => "JOIN"
  | .cross => "JOIN"

/-- The operator kind of a join predicate, as tested by
`isinstance(op, ops.Equals)`. -/
inductive PredKind
  | equals | greater | other
  deriving DecidableEq, Repr

/-- A join predicate at the translator boundary: its operator kind and its
rendered text (the expression translator, out of scope here, supplies the
text). -/
structure Pred where
  kind : PredKind
  text : String
  deriving DecidableEq, Repr

/-- Whether a predicate is an equality comparison. -/
def Pred.is_equals (p : Pred) : Bool :=
  match p.kind with
  | .equals => true
  | _ => false

/-- Modelled from the spec: the expression translator (`self._translate`)
rendering one predicate; predicates carry their rendered text at this
boundary. -/
def translate_pred (p : Pred) : String := p.text

/-- A table-set expression: either a base table or a join node over two
subtrees with a predicate list. -/
inductive TableTree
  | base (name : String)
  | join (jt : JoinType) (l r : TableTree) (preds : List Pred)
  deriving DecidableEq, Repr

/-- The message of the non-equijoin `TranslationError`
(compiler.py lines 147-151). -/
def nonEquijoinMsg : String :=
  "Non-equality join predicates, i.e. non-equijoins, are not supported"

/-- Model of `HeavyDBTableSetFormatter._validate_join_predicates`
(compiler.py lines 139-151): each predicate that is not an equality raises
a `TranslationError` when `_non_equijoin_supported` is disabled.  The
shipped class sets `_non_equijoin_supported = True` (line 137). -/
def validate_join_predicates (sup : Bool) : List Pred → Except CompilerError Unit
  | [] => .ok ()
  | p :: ps =>
    if !p.is_equals && !sup then
      .error (.translationError nonEquijoinMsg)
    else
      validate_join_predicates sup ps

/-- Model of `HeavyDBTableSetFormatter._quote_identifier`
(compiler.py lines 157-158): the identity function. -/
def HeavyDBTableSetFormatter.quote_identifier (name : String) : String := name

/-- Modelled from the spec: the base-class `_format_table` rendering of a
base table (not under src/), which passes the table name through the
formatter's identifier-quoting hook. -/
def format_table (name : String) : String :=
  HeavyDBTableSetFormatter.quote_identifier name

/-- A string of `k` spaces. -/
def spaces (k : Nat) : String := String.mk (List.replicate k ' ')

/-- Model of `ibis.util.indent` (textwrap.indent): prefix every non-blank line of
the text with `k` spaces. -/
def indent (text : String) (k : Nat) : String :=
  String.intercalate "\n"
    ((text.splitOn "\n").map (fun line =>
      if line.trim = "" then line else spaces k ++ line))

/-- The base formatter's indent unit (`TableSetFormatter.indent = 2`). -/
def indentSize : Nat := 2

/-- The body of the rendering loop of
`HeavyDBTableSetFormatter.get_result` (compiler.py lines 110-133): one
join clause for a (join-type, table, predicate-list) triple.  Each
predicate is parenthesized when more than one applies; an empty predicate
list renders the literal `ON TRUE`. -/
def format_join_clause (jtype table : String) (preds : List Pred) : String :=
  let fmt_preds := preds.map (fun p =>
    if preds.length > 1 then "(" ++ translate_pred p ++ ")" else translate_pred p)
  let head := indent (jtype ++ " " ++ table) indentSize
  if fmt_preds.length ≠ 0 then
    head ++ "\n" ++
      indent ("ON " ++ String.intercalate (" AND\n" ++ spaces 3) fmt_preds)
        (indentSize * 2)
  else
    head ++ indent "ON TRUE" (indentSize * 2)

/-- The transient join-walk state: the flat lists `join_tables`,
`join_types`, `join_predicates`. -/
structure WalkState where
  join_tables : List String
  join_types : List String
  join_predicates : List (List Pred)
  deriving DecidableEq, Repr

/-- Modelled from the spec: the base-class `_walk_join_tree` (not under
src/) — a depth-first traversal of a nested join node that validates each
node's predicates and pushes tables, join tokens and predicate lists onto
the flat lists, flattening the tree into a left-to-right chain. -/
def walk_join_tree (sup : Bool) : TableTree → Except CompilerError WalkState
  | .base name => .ok ⟨[format_table name], [], []⟩
  | .join jt l r preds => do
      let _ ← validate_join_predicates sup preds
      let wl ← walk_join_tree sup l
      let wr ← walk_join_tree sup r
      pure ⟨wl.join_tables ++ wr.join_tables,
            wl.join_types ++ join_name jt :: wr.join_types,
            wl.join_predicates ++ preds :: wr.join_predicates⟩

/-- The rendering phase of `HeavyDBTableSetFormatter.get_result`
(compiler.py lines 108-135): the first table, then for each zipped
(join-type, table, predicate-list) triple a newline and a join clause. -/
def render_result (w : WalkState) : String :=
  match w.join_tables with
  | [] => ""
  | t0 :: rest =>
      t0 ++ String.join
        ((w.join_types.zip (rest.zip w.join_predicates)).map
          (fun x => "\n" ++ format_join_clause x.1 x.2.1 x.2.2))

/-- Model of `HeavyDBTableSetFormatter.get_result` (compiler.py lines 90-135): a
join expression is flattened by the depth-first walk; any other expression
contributes a single formatted table.  The flat lists are then rendered. -/
def get_result (sup : Bool) : TableTree → Except CompilerError String
  | .base name => .ok (render_result ⟨[format_table name], [], []⟩)
  | .join jt l r preds =>
      (walk_join_tree sup (.join jt l r preds)).map render_result

/-- The number of base tables of a table-set expression. -/
def leaf_count : TableTree → Nat
  | .base _ => 1
  | .join _ l r _ => leaf_count l + leaf_count r

/-- Whether some join node of the tree carries a non-equality predicate. -/
def has_non_equijoin : TableTree → Bool
  | .base _ => false
  | .join _ l r preds =>
      preds.any (fun p => !p.is_equals) || has_non_equijoin l || has_non_equijoin r

/-! ## Rewrite rules (src/ibis_heavyai/compiler.py lines 190-253) -/

/-- Expression trees over the operator kinds relevant to the rewrite
rules: floor-division and the boolean reductions All/Any/NotAll/NotAny are
the rewritable kinds; division, floor, min/max aggregates, negation,
comparisons and arithmetic are among the supported targets. -/
inductive Expr
  | table (name : String)
  | column (name : String)
  | intLit (n : Int)
  | add (a b : Expr)
  | div (a b : Expr)
  | floorDivide (a b : Expr)
  | floor (a : Expr)
  | minAgg (a : Expr)
  | maxAgg (a : Expr)
  | notOp (a : Expr)
  | eq (a b : Expr)
  | gt (a b : Expr)
  | allAgg (a : Expr)
  | anyAgg (a : Expr)
  | notAllAgg (a : Expr)
  | notAnyAgg (a : Expr)
  deriving DecidableEq, Repr

/-- One application of the registered rewrite rules at the root of a node.
`_floor_divide` (compiler.py lines 190-193) rewrites `a // b` to
`left.div(right).floor()`, i.e. floor applied to the ordinary division of
the same two operands.  The boolean reductions are modelled from the spec
(the operations module is not under src/): All rewrites to a MIN-style
aggregate, Any to a MAX-style aggregate, and NotAll/NotAny to the logical
negation composed with those two.  A node matching no rule is returned
unchanged. -/
def rewrite_node : Expr → Expr
  | .floorDivide a b => .floor (.div a b)
  | .allAgg a => .minAgg a
  | .anyAgg a => .maxAgg a
  | .notAllAgg a => .notOp (.minAgg a)
  | .notAnyAgg a => .notOp (.maxAgg a)
  | e => e

/-- The rewrite pass: rewrite every node of the tree, children first, each
node rewritten once (the translator applies a matching rule once per node
before rendering it). -/
def rewrite_pass : Expr → Expr
  | .table name => rewrite_node (.table name)
  | .column name => rewrite_node (.column name)
  | .intLit n => rewrite_node (.intLit n)
  | .add a b => rewrite_node (.add (rewrite_pass a) (rewrite_pass b))
  | .div a b => rewrite_node (.div (rewrite_pass a) (rewrite_pass b))
  | .floorDivide a b => rewrite_node (.floorDivide (rewrite_pass a) (rewrite_pass b))
  | .floor a => rewrite_node (.floor (rewrite_pass a))
  | .minAgg a => rewrite_node (.minAgg (rewrite_pass a))
  | .maxAgg a => rewrite_node (.maxAgg (rewrite_pass a))
  | .notOp a => rewrite_node (.notOp (rewrite_pass a))
  | .eq a b => rewrite_node (.eq (rewrite_pass a) (rewrite_pass b))
  | .gt a b => rewrite_node (.gt (rewrite_pass a) (rewrite_pass b))
  | .allAgg a => rewrite_node (.allAgg (rewrite_pass a))
  | .anyAgg a => rewrite_node (.anyAgg (rewrite_pass a))
  | .notAllAgg a => rewrite_node (.notAllAgg (rewrite_pass a))
  | .notAnyAgg a => rewrite_node (.notAnyAgg (rewrite_pass a))

/-- Whether no node anywhere in the tree has an operator kind registered
with a rewrite rule (FloorDivide, All, Any, NotAll, NotAny). -/
def rewrite_free : Expr → Bool
  | .table _ => true
  | .column _ => true
  | .intLit _ => true
  | .add a b => rewrite_free a && rewrite_free b
  | .div a b => rewrite_free a && rewrite_free b
  | .floorDivide _ _ => false
  | .floor a => rewrite_free a
  | .minAgg a => rewrite_free a
  | .maxAgg a => rewrite_free a
  | .notOp a => rewrite_free a
  | .eq a b => rewrite_free a && rewrite_free b
  | .gt a b => rewrite_free a && rewrite_free b
  | .allAgg _ => false
  | .anyAgg _ => false
  | .notAllAgg _ => false
  | .notAnyAgg _ => false

/-! ## Compiler facade (src/ibis_heavyai/compiler.py lines 275-289) -/

/-- Model of `HeavyDBCompiler.union_class = None` (compiler.py line 283). -/
def HeavyDBCompiler.union_class : Option Unit := none

/-- Model of `HeavyDBCompiler._make_union` (compiler.py lines 285-289): raises
`UnsupportedOperationError` for every input, producing no SQL text. -/
def HeavyDBCompiler.make_union (_u : Option Unit) (_e : Expr) :
    Except CompilerError String :=
  .error (.unsupportedOperationError "HeavyDB backend doesn't support Union operation")

/-! ## Helper lemmas -/

theorem lookup_eq_none_of_not_mem {α : Type} (l : List (String × α)) (name : String)
    (h : name ∉ l.map Prod.fst) : l.lookup name = none := by
  induction l with
  | nil => rfl
  | cons q t ih =>
    obtain ⟨k, v⟩ := q
    simp only [List.map_cons, List.mem_cons, not_or] at h
    obtain ⟨h1, h2⟩ := h
    simp only [List.lookup]
    rw [beq_eq_false_iff_ne.mpr h1]
    exact ih h2

theorem type_names_no_nullable_prefix :
    ∀ name ∈ type_names, name.startsWith "Nullable" = false := by
  intro name h
  simp only [type_names, sql_to_ibis_dtypes, List.map_cons, List.map_nil,
    List.mem_cons, List.not_mem_nil, or_false] at h
  rcases h with rfl|rfl|rfl|rfl|rfl|rfl|rfl|rfl|rfl|rfl|rfl|rfl|rfl|rfl|rfl|rfl|rfl|rfl <;>
    · simp only [String.startsWith, Substring.take, String.toSubstring]
      simp +decide [Substring.hasBeq, Substring.beq, Substring.bsize, Substring.nextn,
        Substring.next, String.substrEq, String.substrEq.loop, String.endPos,
        String.utf8ByteSize, String.utf8ByteSize.go, Char.utf8Size, String.next,
        String.get, String.utf8GetAux]

theorem lookup_isSome_of_mem_type_names :
    ∀ name ∈ type_names, (sql_to_ibis_dtypes.lookup name).isSome = true := by decide

theorem rewrite_pass_free (e : Expr) : rewrite_free (rewrite_pass e) = true := by
  induction e <;> simp [rewrite_pass, rewrite_node, rewrite_free, *]

theorem rewrite_pass_of_free (e : Expr) (h : rewrite_free e = true) :
    rewrite_pass e = e := by
  induction e <;> simp_all [rewrite_pass, rewrite_node, rewrite_free]

theorem validate_true_ok (preds : List Pred) :
    validate_join_predicates true preds = .ok () := by
  induction preds with
  | nil => rfl
  | cons p ps ih => simp [validate_join_predicates, ih]

theorem validate_false_isOk (preds : List Pred) :
    (validate_join_predicates false preds).isOk = preds.all Pred.is_equals := by
  induction preds with
  | nil => rfl
  | cons p ps ih =>
    by_cases h : p.is_equals = true
    · have hc : (!p.is_equals && !false) = false := by simp [h]
      simp only [validate_join_predicates, hc, List.all_cons, h, Bool.true_and,
        Bool.false_eq_true, if_false]
      exact ih
    · have hb : p.is_equals = false := by revert h; cases p.is_equals <;> simp
      have hc : (!p.is_equals && !false) = true := by simp [hb]
      simp [validate_join_predicates, hc, List.all_cons, hb, Except.isOk, Except.toBool]

theorem validate_false_err (preds : List Pred) (h : preds.all Pred.is_equals = false) :
    validate_join_predicates false preds = .error (.translationError nonEquijoinMsg) := by
  induction preds with
  | nil => simp at h
  | cons p ps ih =>
    by_cases hp : p.is_equals = true
    · simp only [List.all_cons, hp, Bool.true_and] at h
      simp [validate_join_predicates, hp, ih h]
    · simp [validate_join_predicates, hp]

theorem any_not_is_equals (preds : List Pred) :
    (preds.any fun p => !p.is_equals) = !preds.all Pred.is_equals := by
  induction preds with
  | nil => rfl
  | cons p ps ih => cases hp : p.is_equals <;> simp [hp, ih]

theorem validate_false_ok_of_all (preds : List Pred)
    (h : preds.all Pred.is_equals = true) :
    validate_join_predicates false preds = .ok () := by
  cases hres : validate_join_predicates false preds with
  | ok u => cases u; rfl
  | error e =>
    have hok := validate_false_isOk preds
    rw [hres, h] at hok
    simp [Except.isOk, Except.toBool] at hok

theorem walk_true_spec (t : TableTree) :
    ∃ w, walk_join_tree true t = .ok w ∧
      w.join_tables.length = leaf_count t ∧
      w.join_types.length + 1 = leaf_count t ∧
      w.join_predicates.length + 1 = leaf_count t := by
  induction t with
  | base n => exact ⟨⟨[format_table n], [], []⟩, rfl, rfl, rfl, rfl⟩
  | join jt l r preds ihl ihr =>
    obtain ⟨wl, hwl, hlt, hlj, hlp⟩ := ihl
    obtain ⟨wr, hwr, hrt, hrj, hrp⟩ := ihr
    refine ⟨⟨wl.join_tables ++ wr.join_tables,
             wl.join_types ++ join_name jt :: wr.join_types,
             wl.join_predicates ++ preds :: wr.join_predicates⟩, ?_, ?_, ?_, ?_⟩
    · simp [walk_join_tree, validate_true_ok, hwl, hwr, Except.bind, Bind.bind, Functor.map, Except.map, Pure.pure, Except.pure]
    · simp only [List.length_append, leaf_count]; omega
    · simp only [List.length_append, List.length_cons, leaf_count]; omega
    · simp only [List.length_append, List.length_cons, leaf_count]; omega

theorem walk_false_ok_of_free (t : TableTree) (h : has_non_equijoin t = false) :
    ∃ w, walk_join_tree false t = .ok w := by
  induction t with
  | base n => exact ⟨_, rfl⟩
  | join jt l r preds ihl ihr =>
    simp only [has_non_equijoin, Bool.or_eq_false_iff] at h
    obtain ⟨⟨hp, hl⟩, hr⟩ := h
    obtain ⟨wl, hwl⟩ := ihl hl
    obtain ⟨wr, hwr⟩ := ihr hr
    have hall : preds.all Pred.is_equals = true := by
      rw [any_not_is_equals] at hp
      revert hp; cases preds.all Pred.is_equals <;> simp
    have hv := validate_false_ok_of_all preds hall
    exact ⟨⟨wl.join_tables ++ wr.join_tables,
            wl.join_types ++ join_name jt :: wr.join_types,
            wl.join_predicates ++ preds :: wr.join_predicates⟩,
      by simp [walk_join_tree, hv, hwl, hwr, Except.bind, Bind.bind, Functor.map,
        Except.map, Pure.pure, Except.pure]⟩

theorem walk_false_error_of_viol (t : TableTree) (h : has_non_equijoin t = true) :
    walk_join_tree false t = .error (.translationError nonEquijoinMsg) := by
  induction t with
  | base n => simp [has_non_equijoin] at h
  | join jt l r preds ihl ihr =>
    by_cases hp : (preds.any fun p => !p.is_equals) = true
    · have hall : preds.all Pred.is_equals = false := by
        rw [any_not_is_equals] at hp
        revert hp; cases preds.all Pred.is_equals <;> simp
      have hv := validate_false_err preds hall
      simp [walk_join_tree, hv, Except.bind, Bind.bind, Functor.map, Except.map, Pure.pure, Except.pure]
    · have hall : preds.all Pred.is_equals = true := by
        rw [any_not_is_equals] at hp
        revert hp; cases preds.all Pred.is_equals <;> simp
      have hv := validate_false_ok_of_all preds hall
      have hpf : (preds.any fun p => !p.is_equals) = false := by
        revert hp; cases preds.any fun p => !p.is_equals <;> simp
      by_cases hl : has_non_equijoin l = true
      · simp [walk_join_tree, hv, ihl hl, Except.bind, Bind.bind, Functor.map, Except.map, Pure.pure, Except.pure]
      · have hlf : has_non_equijoin l = false := by
          revert hl; cases has_non_equijoin l <;> simp
        obtain ⟨wl, hwl⟩ := walk_false_ok_of_free l hlf
        have hr : has_non_equijoin r = true := by
          simp only [has_non_equijoin, hpf, hlf, Bool.false_or] at h
          exact h
        simp [walk_join_tree, hv, hwl, ihr hr, Except.bind, Bind.bind, Functor.map, Except.map, Pure.pure, Except.pure]

/-! ## Claim theorems -/

/-- Claim C1: for every join expression tree over N base tables, the
depth-first walk flattens it into the transient lists with
`len(join_tables) = len(join_types) + 1 = len(join_predicates) + 1`, the
rendered text of `get_result` is the first table followed by exactly N-1
join clauses, and each clause carries an `ON` clause whose predicates are
AND-joined (each parenthesized exactly when more than one applies) or the
literal text `ON TRUE` when its predicate list is empty. -/
theorem join_flatten_invariant (t : TableTree) :
    ∃ w : WalkState,
      walk_join_tree true t = .ok w
      ∧ w.join_tables.length = w.join_types.length + 1
      ∧ w.join_tables.length = w.join_predicates.length + 1
      ∧ w.join_tables.length = leaf_count t
      ∧ get_result true t = .ok (render_result w)
      ∧ (w.join_types.zip (w.join_tables.tail.zip w.join_predicates)).length
          = leaf_count t - 1
      ∧ (∀ jtype table ps, format_join_clause jtype table ps =
          if ps.length = 0 then
            indent (jtype ++ " " ++ table) indentSize ++ indent "ON TRUE" (indentSize * 2)
          else
            indent (jtype ++ " " ++ table) indentSize ++ "\n" ++
              indent ("ON " ++ String.intercalate (" AND\n" ++ spaces 3)
                (ps.map (fun p =>
                  if ps.length > 1 then "(" ++ translate_pred p ++ ")"
                  else translate_pred p)))
                (indentSize * 2)) := by
  obtain ⟨w, hw, ht, hj, hp⟩ := walk_true_spec t
  refine ⟨w, hw, by omega, by omega, ht, ?_, ?_, ?_⟩
  · cases t with
    | base n =>
      have hwb : (⟨[format_table n], [], []⟩ : WalkState) = w := by
        have heq : (Except.ok ⟨[format_table n], [], []⟩ :
            Except CompilerError WalkState) = .ok w := by
          rw [← hw]; rfl
        exact Except.ok.inj heq
      simp [get_result, ← hwb]
    | join jt l r preds =>
      simp [get_result, hw, Except.map, Functor.map]
  · have htail : w.join_tables.tail.length = w.join_types.length := by
      rw [List.length_tail]; omega
    simp only [List.length_zip, htail]
    omega
  · intro jtype table ps
    by_cases hps : ps.length = 0
    · have : ps = [] := List.length_eq_zero.mp hps
      subst this
      simp [format_join_clause]
    · simp only [format_join_clause, List.length_map, hps]
      simp [hps]

/-- Claim C3: `format_limit` returns no clause when no limit is set;
`LIMIT n` when the offset is absent or zero; and the comma form
`LIMIT n, k` for a non-zero offset k. -/
theorem format_limit_cases (n k : Int) (hk : k ≠ 0) :
    format_limit none = none
    ∧ format_limit (some ⟨n, none⟩) = some ("LIMIT " ++ toString n)
    ∧ format_limit (some ⟨n, some 0⟩) = some ("LIMIT " ++ toString n)
    ∧ format_limit (some ⟨n, some k⟩) =
        some ("LIMIT " ++ toString n ++ ", " ++ toString k) := by
  refine ⟨rfl, by simp [format_limit], by simp [format_limit], ?_⟩
  simp [format_limit, hk, String.append_assoc]

/-- Witness for C3 at limit 10, offset 5. -/
theorem format_limit_cases_witness :
    format_limit none = none
    ∧ format_limit (some ⟨10, none⟩) = some ("LIMIT " ++ toString (10 : Int))
    ∧ format_limit (some ⟨10, some 0⟩) = some ("LIMIT " ++ toString (10 : Int))
    ∧ format_limit (some ⟨10, some 5⟩) =
        some ("LIMIT " ++ toString (10 : Int) ++ ", " ++ toString (5 : Int)) :=
  format_limit_cases 10 5 (by decide)

/-- Claim C4: the floor-division rewrite replaces `a // b` with a tree
whose root is the floor operator applied to the ordinary division of the
same two operands, both as a single rule application and under the full
rewrite pass. -/
theorem floor_divide_rewrite (a b : Expr) :
    rewrite_node (.floorDivide a b) = .floor (.div a b)
    ∧ rewrite_pass (.floorDivide a b)
        = .floor (.div (rewrite_pass a) (rewrite_pass b)) :=
  ⟨rfl, rfl⟩

/-- Claim C5: the rewrite pass is idempotent — applying the dialect's
rewrite rules twice yields the same tree as applying them once, and no
rule's output contains an operator kind that triggers a rewrite again. -/
theorem rewrite_pass_idempotent (e : Expr) :
    rewrite_pass (rewrite_pass e) = rewrite_pass e
    ∧ rewrite_free (rewrite_pass e) = true :=
  ⟨rewrite_pass_of_free (rewrite_pass e) (rewrite_pass_free e),
   rewrite_pass_free e⟩

/-- Claim C6: with non-equijoins disabled, a join containing a
non-equality predicate fails with the join-predicate-validation
translation error and no SQL text is produced; validation succeeds for
every predicate list whose predicates are all equalities, and succeeds
unconditionally under the shipped configuration
(`_non_equijoin_supported = True`). -/
theorem non_equijoin_validation (t : TableTree) (preds : List Pred)
    (h : has_non_equijoin t = true) :
    validate_join_predicates true preds = .ok ()
    ∧ (validate_join_predicates false preds).isOk = preds.all Pred.is_equals
    ∧ get_result false t = .error (.translationError nonEquijoinMsg)
    ∧ (∀ u : TableTree, (get_result false u).isOk = !has_non_equijoin u) := by
  refine ⟨validate_true_ok preds, validate_false_isOk preds, ?_, ?_⟩
  · cases t with
    | base n => simp [has_non_equijoin] at h
    | join jt l r ps =>
      have he := walk_false_error_of_viol _ h
      simp [get_result, he, Except.map, Functor.map]
  · intro u
    cases u with
    | base n => rfl
    | join jt l r ps =>
      by_cases hu : has_non_equijoin (TableTree.join jt l r ps) = true
      · have he := walk_false_error_of_viol _ hu
        simp [get_result, he, Except.map, Functor.map, hu, Except.isOk, Except.toBool]
      · have huf : has_non_equijoin (TableTree.join jt l r ps) = false := by
          revert hu; cases has_non_equijoin (TableTree.join jt l r ps) <;> simp
        obtain ⟨w, hw⟩ := walk_false_ok_of_free _ huf
        simp [get_result, hw, Except.map, Functor.map, huf, Except.isOk, Except.toBool]

/-- Witness for C6: a join with a greater-than predicate under the
equi-join-only configuration. -/
theorem non_equijoin_validation_witness :
    has_non_equijoin (.join .inner (.base "t1") (.base "t2") [⟨.greater, "a > b"⟩]) = true
    ∧ (validate_join_predicates true [(⟨.equals, "x = y"⟩ : Pred)] = .ok ()
       ∧ (validate_join_predicates false [(⟨.equals, "x = y"⟩ : Pred)]).isOk
           = [(⟨.equals, "x = y"⟩ : Pred)].all Pred.is_equals
       ∧ get_result false
           (.join .inner (.base "t1") (.base "t2") [⟨.greater, "a > b"⟩])
           = .error (.translationError nonEquijoinMsg)
       ∧ (∀ u : TableTree, (get_result false u).isOk = !has_non_equijoin u)) :=
  ⟨by decide,
   non_equijoin_validation
     (.join .inner (.base "t1") (.base "t2") [⟨.greater, "a > b"⟩])
     [⟨.equals, "x = y"⟩] (by decide)⟩

/-- Claim C7: compiling a UNION raises the unsupported-operation error for
every input and produces no SQL text; the compiler declares no union
class. -/
theorem union_unsupported (u : Option Unit) (e : Expr) :
    HeavyDBCompiler.make_union u e =
      .error (.unsupportedOperationError "HeavyDB backend doesn't support Union operation")
    ∧ HeavyDBCompiler.union_class = none :=
  ⟨rfl, rfl⟩

/-- Claim C10: the table-set formatter's identifier quoting is the
identity function, so table names reach the FROM and JOIN clauses
unquoted and unescaped. -/
theorem quote_identifier_identity (name : String) :
    HeavyDBTableSetFormatter.quote_identifier name = name
    ∧ format_table name = name :=
  ⟨rfl, rfl⟩

/-- Counterexample to claim C2: the name-to-type mapping is not a
bijection — `DECIMAL` and `NUMERIC` share the image `Decimal(18, 9)`, so
the round trip sends `DECIMAL` to `NUMERIC`. -/
theorem typename_roundtrip_decimal_cx :
    "DECIMAL" ∈ type_names
    ∧ typename_roundtrip "DECIMAL" ≠ .ok "DECIMAL"
    ∧ typename_roundtrip "DECIMAL" = .ok "NUMERIC" := by
  refine ⟨by decide, ?_, by decide⟩
  intro h
  have : ("NUMERIC" : String) = "DECIMAL" := by
    have hn : typename_roundtrip "DECIMAL" = .ok "NUMERIC" := by decide
    exact Except.ok.inj (hn ▸ h)
  simp at this

/-- Amended claim C2: for every dialect type name in the declared domain
the round trip returns the same name, except `DECIMAL`, which returns
`NUMERIC` (the dict inversion keeps the last of the two names sharing the
image `Decimal(18, 9)`). -/
theorem typename_roundtrip_amended :
    ∀ name ∈ type_names,
      typename_roundtrip name
        = .ok (if name = "DECIMAL" then "NUMERIC" else name) := by decide

/-- Witness for the amended C2 at `BIGINT`. -/
theorem typename_roundtrip_amended_witness :
    typename_roundtrip "BIGINT" = .ok "BIGINT" := by
  have h := typename_roundtrip_amended "BIGINT" (by decide)
  rwa [if_neg (by decide)] at h

/-- Claim C8: constructing a dialect type from a name outside the
recognized set raises `UnsupportedBackendType` naming the token, and
converting a host-framework dtype with no dialect mapping raises an error
naming that dtype; neither silently defaults. -/
theorem unsupported_type_error (name : String) (nb : Bool) (d : IbisInstance)
    (h1 : name ∉ type_names) (h2 : mapped_ibis d = false) :
    OmniSciDBDataType.init name nb = .error (.unsupportedBackendType name)
    ∧ OmniSciDBDataType.from_ibis d none = .error (.notImplemented d) := by
  constructor
  · have hl := lookup_eq_none_of_not_mem sql_to_ibis_dtypes name h1
    simp [OmniSciDBDataType.init, hl]
  · cases hc : ibis_dtypes_lookup (.cls d.kind) with
    | some tn => rw [mapped_ibis, hc] at h2; simp at h2
    | none =>
      cases hi : ibis_dtypes_lookup (.inst d) with
      | some tn => rw [mapped_ibis, hc, hi] at h2; simp at h2
      | none => simp [OmniSciDBDataType.from_ibis, hc, hi]

/-- Witness for C8: the unrecognized name `FOO`, and the non-nullable
int64 dtype, which has no key in the inverted dictionary. -/
theorem unsupported_type_error_witness :
    ("FOO" ∉ type_names
      ∧ mapped_ibis ⟨.int64, none, none, false⟩ = false)
    ∧ OmniSciDBDataType.init "FOO" true = .error (.unsupportedBackendType "FOO")
    ∧ OmniSciDBDataType.from_ibis ⟨.int64, none, none, false⟩ none
        = .error (.notImplemented ⟨.int64, none, none, false⟩) := by
  refine ⟨⟨by decide, by decide⟩, ?_, ?_⟩
  · exact (unsupported_type_error "FOO" true ⟨.int64, none, none, false⟩
      (by decide) (by decide)).1
  · exact (unsupported_type_error "FOO" true ⟨.int64, none, none, false⟩
      (by decide) (by decide)).2

/-- Claim C9: `parse` always returns a nullable type — a `Nullable(T)`
spec parses to T with the nullable flag set, and any other spec uses the
constructor's default `nullable=True` — so for every valid non-nullable
type the parse of its string rendering agrees on the typename but differs
in the nullable flag, and parse is not a left inverse of the rendering on
non-nullable types. -/
theorem parse_not_left_inverse (t : OmniSciDBDataType)
    (hmem : t.typename ∈ type_names) (hnn : t.nullable = false) :
    OmniSciDBDataType.parse t.toStr = .ok ⟨t.typename, true⟩
    ∧ (⟨t.typename, true⟩ : OmniSciDBDataType) ≠ t
    ∧ (∀ s u, OmniSciDBDataType.parse s = .ok u → u.nullable = true) := by
  refine ⟨?_, ?_, ?_⟩
  · have hstr : t.toStr = t.typename := by simp [OmniSciDBDataType.toStr, hnn]
    have hpre := type_names_no_nullable_prefix t.typename hmem
    have hsome := lookup_isSome_of_mem_type_names t.typename hmem
    rw [hstr]
    simp [OmniSciDBDataType.parse, hpre, OmniSciDBDataType.init, hsome]
  · intro h
    have hn := congrArg OmniSciDBDataType.nullable h
    rw [hnn] at hn
    simp at hn
  · intro s u h
    simp only [OmniSciDBDataType.parse, OmniSciDBDataType.init] at h
    split at h <;> split at h <;>
      first
        | (cases h; rfl)
        | exact absurd h (by simp)

/-- Witness for C9 at the non-nullable `INT` type. -/
theorem parse_not_left_inverse_witness :
    OmniSciDBDataType.parse (OmniSciDBDataType.toStr ⟨"INT", false⟩)
        = .ok ⟨"INT", true⟩
    ∧ (⟨"INT", true⟩ : OmniSciDBDataType) ≠ ⟨"INT", false⟩ := by
  have h := parse_not_left_inverse ⟨"INT", false⟩ (by decide) rfl
  exact ⟨h.1, h.2.1⟩

end HeavyDB
